import Mathlib

/-!
Verification of the cppan core (manifest loader, registry client, package
cache, build-file emitter) against its specification.  The definitions below
are shallow embeddings of the corresponding functions in src/src/cppan.cpp;
external effects (filesystem contents, the network, the regex engine, the
shell-out file-type probe) are passed in as explicit inputs.  Types of the
repository that are not among the given source files (ProjectPath, Version)
are modelled from the specification and say so in their doc comments.
-/

deriving instance DecidableEq for Except

namespace Cppan

/-! ## Characters, filenames and extensions (src/cppan.cpp lines 64-147) -/

/-- Split a character list at a separator character; structural recursion so
that concrete instances reduce.  `splitCharAux l sep cur` processes `l` with
`cur` the (reversed) pending component. -/
def splitCharAux : List Char → Char → List Char → List (List Char)
  | [], _, cur => [cur.reverse]
  | c :: cs, sep, cur =>
      if c = sep then cur.reverse :: splitCharAux cs sep []
      else splitCharAux cs sep (c :: cur)

def splitChar (sep : Char) (l : List Char) : List (List Char) :=
  splitCharAux l sep []

/-- The filename component of a forward-slash relative path, as
boost `path::filename` sees it: everything after the last separator. -/
def filenameOf (s : String) : String :=
  String.mk ((splitChar '/' s.data).getLastD [])

/-- Boost `path::extension`: the suffix of the filename starting at its last
dot (dot included); empty when the filename has no dot or is "." or "..". -/
def extensionOf (s : String) : String :=
  let f := filenameOf s
  if f = "." ∨ f = ".." then ""
  else
    let parts := splitChar '.' f.data
    if parts.length ≤ 1 then "" else String.mk ('.' :: parts.getLastD [])

/-- src/cppan.cpp `source_file_extensions`: the compilable source set. -/
def source_file_extensions : List String :=
  [".c", ".cc", ".cpp", ".cxx", ".c++", ".CPP"]

/-- src/cppan.cpp `header_file_extensions`. -/
def header_file_extensions : List String :=
  [".h", ".hh", ".hpp", ".hxx", ".h++", ".HPP"]

/-- src/cppan.cpp `is_valid_source`: the path has an extension and that
extension is in the source set. -/
def is_valid_source (p : String) : Bool :=
  if extensionOf p = "" then false
  else source_file_extensions.contains (extensionOf p)

/-! ## ProjectPath and Version (modelled from the spec; project_path.h and
the Version type are part of the repository but not among the given files) -/

/-- Modelled from the spec: a `ProjectPath` is an ordered sequence of dotted
name segments. -/
structure ProjectPath where
  segs : List String
deriving DecidableEq, Repr

/-- Modelled from the spec: a path is absolute when it begins with a
recognized owner segment (the spec examples use owners such as "org"). -/
def recognizedOwners : List String := ["org", "com", "pvt"]

def ProjectPath.is_relative (p : ProjectPath) : Bool :=
  match p.segs with
  | [] => true
  | s :: _ => !(recognizedOwners.contains s)

/-- Modelled from the spec: renders back to dotted form. -/
def ProjectPath.toString (p : ProjectPath) : String :=
  String.intercalate "." p.segs

/-- Modelled from the spec: a `ProjectPath` parsed from a dotted name. -/
def ProjectPath.fromString (s : String) : ProjectPath :=
  ⟨if s = "" then [] else (splitChar '.' s.data).map String.mk⟩

/-- Modelled from the spec: `root_project / name` resolves a relative name
against a prefix by segment concatenation. -/
def ProjectPath.div (p : ProjectPath) (name : String) : ProjectPath :=
  ⟨p.segs ++ (ProjectPath.fromString name).segs⟩

def intStr (i : Int) : String := ToString.toString i

/-- Modelled from the spec: `Version` is three signed integers where -1
denotes "any", or alternatively a branch name. -/
inductive Version where
  | semver (major minor patch : Int)
  | branch (name : String)
deriving DecidableEq, Repr

def Version.isBranch : Version → Bool
  | .branch _ => true
  | .semver _ _ _ => false

/-- Modelled from the spec: `toAnyVersion` yields "*" when all three
components are -1, otherwise the dotted form truncated at the first -1.
A branch renders as its name. -/
def Version.toAnyVersion : Version → String
  | .branch b => b
  | .semver ma mi pa =>
      if ma = -1 then "*"
      else if mi = -1 then intStr ma
      else if pa = -1 then intStr ma ++ "." ++ intStr mi
      else intStr ma ++ "." ++ intStr mi ++ "." ++ intStr pa

/-- Modelled from the spec: the full rendering used for directory names and
the registry request. -/
def Version.toString : Version → String
  | .branch b => b
  | .semver ma mi pa => intStr ma ++ "." ++ intStr mi ++ "." ++ intStr pa

/-- src/cppan.cpp line 1394: `ver.patch = -1`. -/
def Version.withPatchAny : Version → Version
  | .semver ma mi _ => .semver ma mi (-1)
  | v => v

/-- src/cppan.cpp line 1396: `ver.minor = -1`. -/
def Version.withMinorAny : Version → Version
  | .semver ma _ pa => .semver ma (-1) pa
  | v => v

/-! ## Dependency and PackageInfo (src/cppan.cpp lines 462-469) -/

/-- The fields of `Dependency` that the embedded functions read (the full
struct lives in a header that only declares more bookkeeping fields). -/
structure Dependency where
  package : ProjectPath
  version : Version
  md5 : String
  flagPrivate : Bool
  flagExecutable : Bool
  flagHeaderOnly : Bool
  flagDirectDependency : Bool
deriving DecidableEq, Repr

def dotToUnderscore (c : Char) : Char := if c = '.' then '_' else c

/-- `std::replace(s.begin(), s.end(), '.', '_')` on a string. -/
def replaceDots (s : String) : String :=
  String.mk (s.data.map dotToUnderscore)

structure PackageInfo where
  dependency : Dependency
  target_name : String
  variable_name : String
deriving DecidableEq, Repr

/-- src/cppan.cpp `PackageInfo::PackageInfo(const Dependency &)`:
`target_name = package + ("-" + v unless v is "*")` and
`variable_name = package + "_" + ("_" + v unless v is "*")` with every
dot then replaced by an underscore. -/
def PackageInfo.mkFromDep (d : Dependency) : PackageInfo :=
  let v := d.version.toAnyVersion
  { dependency := d
    target_name := d.package.toString ++ (if v = "*" then "" else "-" ++ v)
    variable_name :=
      replaceDots (d.package.toString ++ "_" ++ (if v = "*" then "" else "_" ++ v)) }

/-! ## Build-system insertion blocks (src/cppan.cpp lines 431-460) -/

/-- src/cppan.cpp `get_config_insertion`: read the scalar at the key (an
absent key gives the empty string via `get_scalar`) and, when the result is
non-empty, `dst.resize(dst.size() - 1)` chops the last character; the
comment beside that line says "remove trailing newline". -/
def get_config_insertion (scalar : Option String) : String :=
  let dst := scalar.getD ""
  if dst.isEmpty then dst else dst.dropRight 1

structure BuildSystemConfigInsertions where
  pre_sources : String
  post_sources : String
  post_target : String
  post_alias : String
deriving DecidableEq, Repr

/-- src/cppan.cpp `BuildSystemConfigInsertions::get_config_insertions`:
each of the four keys goes through `get_config_insertion`. -/
def BuildSystemConfigInsertions.get_config_insertions
    (pre_sources post_sources post_target post_alias : Option String) :
    BuildSystemConfigInsertions :=
  { pre_sources := get_config_insertion pre_sources
    post_sources := get_config_insertion post_sources
    post_target := get_config_insertion post_target
    post_alias := get_config_insertion post_alias }

/-! ## Boost path comparison and the root_directory guard
(src/cppan.cpp Config::load_project lines 728-734) -/

/-- A filesystem path as its list of components (boost iteration order);
appending never normalizes, so ".." stays a component. -/
def splitPath (s : String) : List String :=
  ((splitChar '/' s.data).map String.mk).filter (fun c => c ≠ "")

/-- Boost `operator/`: component concatenation without normalization. -/
def appendPath (base : List String) (rel : String) : List String :=
  base ++ splitPath rel

/-- Byte-wise lexicographic comparison of two strings (as `std::string`
`operator<` compares path elements); structural so that instances reduce. -/
def charListLt : List Char → List Char → Bool
  | [], [] => false
  | [], _ :: _ => true
  | _ :: _, [] => false
  | a :: as, b :: bs =>
      if a.toNat < b.toNat then true
      else if a = b then charListLt as bs else false

def strLt (a b : String) : Bool := charListLt a.data b.data

/-- Boost path `operator<`: lexicographic element-wise comparison; a proper
prefix compares less than its extension. -/
def pathLt : List String → List String → Bool
  | [], [] => false
  | [], _ :: _ => true
  | _ :: _, [] => false
  | a :: as, b :: bs => if strLt a b then true else if a = b then pathLt as bs else false

/-- src/cppan.cpp lines 728-734, the `root_directory` handler of
`Config::load_project`: the loader throws exactly when
`cp / p.root_directory < cp`, where `cp` is the current working directory. -/
def root_directory_guard_fires (cwd : List String) (root_directory : String) : Bool :=
  pathLt (appendPath cwd root_directory) cwd

/-- Resolution of "." and ".." components: what "the directory the path
resolves to" means for a descendant check. -/
def normalizePath (l : List String) : List String :=
  l.foldl (fun acc c =>
    if c = "." then acc
    else if c = ".." then acc.dropLast
    else acc ++ [c]) []

/-- `p` lies inside (or at) `base`. -/
def isDescendantOf (p base : List String) : Bool :=
  base.isPrefixOf p

/-! ## Registry response validation
(src/cppan.cpp Config::download_dependencies lines 956-967) -/

/-- src/cppan.cpp lines 956-967: `int api = 0` is overwritten by the `api`
field when present; an `error` field is thrown verbatim; then `api == 0`
and `api != 1` are fatal.  The response fields enter as options: `none`
means the key is absent from the parsed tree. -/
def check_response_api (api : Option Int) (err : Option String) :
    Except String Unit :=
  let a := api.getD 0
  match err with
  | some e => Except.error e
  | none =>
      if a = 0 then Except.error "Api version is missing in the response"
      else if a ≠ 1 then Except.error "Bad api version"
      else Except.ok ()

/-! ## The per-package fetch-or-reuse block
(src/cppan.cpp Config::download_dependencies lines 1045-1103) -/

/-- The on-disk cache state for one package: the version directory
`<root>/<package>/<version>` (`some` holds its contents when it exists), the
sibling `archive.md5` file (`some` holds the token `ifile >> file_md5`
reads; `none` when the file cannot be opened), and whether the downloaded
archive `<version>.tar.gz` is present. -/
structure CacheState where
  version_dir : Option (List String)
  md5_file : Option String
  archive_file : Bool
deriving DecidableEq, Repr

/-- What one run of the fetch-or-reuse block did: the cache state it leaves
behind, whether `download_file` ran, whether `unpack_file` ran, and the
error it threw (`none` when it fell through to the config-file stage). -/
structure FetchResult where
  state : CacheState
  downloaded : Bool
  unpack_attempted : Bool
  error : Option String
deriving DecidableEq, Repr

/-- src/cppan.cpp lines 1045-1103, the fetch-or-reuse block run for one
package of the registry response.  `dep_md5` is the registry-supplied md5,
`dl_md5` the md5 the download accumulator computes for the fetched archive,
and `unpack_result` the outcome of `unpack_file` (`some` lists the entries
it would populate; `none` is a failure thrown from the archiver).  Writing
`archive.md5` is modelled as succeeding (the code throws when the file
cannot be opened). -/
def download_dependencies_fetch (st : CacheState) (dep_md5 dl_md5 : String)
    (unpack_result : Option (List String)) : FetchResult :=
  let file_md5 := st.md5_file.getD ""
  let must_download := file_md5 ≠ dep_md5 ∨ dep_md5 = "" ∨ file_md5 = ""
  if st.version_dir = none ∨ must_download then
    let st1 : CacheState :=
      { version_dir := none, md5_file := st.md5_file, archive_file := true }
    if dl_md5 ≠ dep_md5 then
      { state := st1, downloaded := true, unpack_attempted := false,
        error := some "md5 does not match for package" }
    else
      let st2 : CacheState := { st1 with md5_file := some dep_md5 }
      match unpack_result with
      | none =>
          { state := { st2 with version_dir := none }, downloaded := true,
            unpack_attempted := true, error := some "unpack failed" }
      | some contents =>
          { state := { st2 with version_dir := some contents, archive_file := false },
            downloaded := true, unpack_attempted := true, error := none }
  else
    { state := st, downloaded := false, unpack_attempted := false, error := none }

/-! ## Source discovery (src/cppan.cpp Project::findSources lines 471-530) -/

/-- Set-insert on a list standing for `std::set` / the project file set:
membership, not order, is what the embedded code observes. -/
def insertStr (l : List String) (s : String) : List String :=
  if l.contains s then l else l ++ [s]

/-- The filesystem and subprocess effects `findSources` performs, passed in
as data: whether a pattern names an existing file under the root, the
relative paths of the regular files the recursive walk visits (iteration
order), the regex engine (`std::regex_match(file, std::regex(pattern))`),
the outcome of `check_file_types` (a shell-out to `file -ib`), and the
existence and size check of the license file. -/
structure SourceWorld where
  literal_exists : String → Bool
  walk : List String
  rmatch : String → String → Bool
  file_checks_ok : Bool
  license_exists : Bool
  license_size_ok : Bool

/-- src/cppan.cpp lines 473-509: move literal matches from `sources` into
`files`, fail when both are empty for a non-empty project, insert every
walked file some remaining pattern matches, fail when the set is still
empty.  Returns the discovered file set. -/
def findSourcesDiscover (sources files0 : List String) (isEmpty : Bool)
    (w : SourceWorld) : Except String (List String) :=
  let literal := sources.filter w.literal_exists
  let remaining := sources.filter (fun s => !w.literal_exists s)
  let files1 := literal.foldl insertStr files0
  if remaining.isEmpty && files1.isEmpty && !isEmpty then
    Except.error "files must be populated"
  else
    let files2 := w.walk.foldl
      (fun acc f => if remaining.any (fun e => w.rmatch e f) then insertStr acc f else acc)
      files1
    if files2.isEmpty && !isEmpty then Except.error "no files found"
    else Except.ok files2

/-- src/cppan.cpp lines 511-530, run on the discovered set: the
`check_file_types` shell-out, then `header_only := none_of(files,
is_valid_source)` (line 516, computed before the later insertions), then
the license file (existence and 512 KiB checks) is inserted when a license
is declared, then the manifest file is copied in and inserted. -/
def findSourcesFinish (files : List String) (license cppan_filename : String)
    (w : SourceWorld) : Except String (List String × Bool) :=
  if !w.file_checks_ok then
    Except.error "Project did not pass file checks"
  else if license ≠ "" ∧ ¬w.license_exists then
    Except.error "License does not exists"
  else if license ≠ "" ∧ ¬w.license_size_ok then
    Except.error "license is invalid"
  else
    Except.ok
      (insertStr (if license ≠ "" then insertStr files license else files) cppan_filename,
       files.all (fun f => !is_valid_source f))

/-- src/cppan.cpp `Project::findSources` (lines 471-530): discovery, then
the finishing steps above.  Returns the final file set and `header_only`. -/
def Project.findSources (sources files0 : List String) (isEmpty : Bool)
    (license : String) (cppan_filename : String) (w : SourceWorld) :
    Except String (List String × Bool) :=
  match findSourcesDiscover sources files0 isEmpty w with
  | Except.error e => Except.error e
  | Except.ok files => findSourcesFinish files license cppan_filename w

/-! ## The emitted alias section
(src/cppan.cpp Config::print_package_config_file lines 1389-1400) -/

/-- src/cppan.cpp lines 1389-1400: the `add_library(<alias> ALIAS <target>)`
lines of the aliases section as (alias, target) pairs.  A copy of the
version first gets `patch = -1`, then additionally `minor = -1`, and each
stage is rendered with `toAnyVersion`; a branch version emits nothing. -/
def print_package_aliases (d : Dependency) : List (String × String) :=
  let pi := PackageInfo.mkFromDep d
  if d.version.isBranch then []
  else
    let v1 := d.version.withPatchAny
    let v2 := v1.withMinorAny
    [(d.package.toString ++ "-" ++ v1.toAnyVersion, pi.target_name),
     (d.package.toString ++ "-" ++ v2.toAnyVersion, pi.target_name),
     (d.package.toString, pi.target_name)]

/-! ## The registry request phase
(src/cppan.cpp Config::download_dependencies lines 932-953) -/

/-- A project as `download_dependencies` reads it: its declared dependency
map (`std::map` iteration order carried by the list). -/
structure Project where
  package : ProjectPath
  dependencies : List (String × Dependency)
deriving Repr

/-- The parsed registry response tree (the keys lines 956-971 read). -/
structure RegistryResponse where
  api : Option Int
  error : Option String
  data_dir : Option String
deriving DecidableEq, Repr

/-- The fields of `Config` that `download_dependencies` touches. -/
structure ConfigState where
  host : String
  projects : List Project
  packages : List (String × PackageInfo)
  indirect_dependencies : List (String × Dependency)
  dependency_tree : Option RegistryResponse
deriving Repr

/-- `ptree::put_child` keyed at the package path: a node already present at
the same path is replaced, otherwise a new child is appended. -/
def putChild (data : List (String × String)) (key val : String) :
    List (String × String) :=
  if data.any (fun kv => kv.1 = key) then
    data.map (fun kv => if kv.1 = key then (key, val) else kv)
  else data ++ [(key, val)]

/-- src/cppan.cpp lines 936-947: the request body — for every project, every
declared dependency whose package is not relative contributes
`{package: {version}}`. -/
def download_dependencies_request (projects : List Project) :
    List (String × String) :=
  projects.foldl
    (fun data p =>
      p.dependencies.foldl
        (fun data kd =>
          if kd.2.package.is_relative then data
          else putChild data kd.2.package.toString kd.2.version.toString)
        data)
    []

/-- The outcome of lines 932-953: either the function returned at line 950
(`data.empty()`), leaving the `Config` exactly as it was — no `url_post`,
no download — or it issued the POST with the collected body and went on. -/
inductive DownloadStart where
  | no_deps (final : ConfigState)
  | request (body : List (String × String))
deriving Repr

/-- src/cppan.cpp lines 932-953 of `Config::download_dependencies`: collect
the request body; when it is empty return with every field unchanged,
otherwise POST it. -/
def download_dependencies_start (cfg : ConfigState) : DownloadStart :=
  let data := download_dependencies_request cfg.projects
  if data.isEmpty then DownloadStart.no_deps cfg
  else DownloadStart.request data

/-! ## relative_name_to_absolute
(src/cppan.cpp Config::relative_name_to_absolute lines 896-910) -/

def exceptIsError {ε α : Type} : Except ε α → Bool
  | Except.error _ => true
  | Except.ok _ => false

/-- src/cppan.cpp `Config::relative_name_to_absolute`: the empty name maps
to the empty path; a relative name needs a non-empty `root_project` (else a
fatal error) and is resolved against it; an absolute name passes through. -/
def relative_name_to_absolute (root_project : ProjectPath) (name : String) :
    Except String ProjectPath :=
  if name = "" then Except.ok ⟨[]⟩
  else if (ProjectPath.fromString name).is_relative then
    if root_project.segs = [] then
      Except.error "You are using relative names, but root_project is missing"
    else Except.ok (root_project.div name)
  else Except.ok (ProjectPath.fromString name)

/-- src/cppan.cpp Config::load lines 700-709: the project names handed to
`set_project` — the map keys when a `projects` key is present, otherwise
the single name "". -/
def load_project_names (projects_key : Option (List String)) : List String :=
  match projects_key with
  | some names => names
  | none => [""]

/-! # Theorems -/

/-! ## Helper lemmas -/

theorem charListLt_irrefl (l : List Char) : charListLt l l = false := by
  induction l with
  | nil => rfl
  | cons a as ih => simp [charListLt, ih]

theorem strLt_irrefl (s : String) : strLt s s = false :=
  charListLt_irrefl s.data

theorem pathLt_append_self (a b : List String) : pathLt (a ++ b) a = false := by
  induction a with
  | nil => cases b <;> rfl
  | cons x xs ih => simp [pathLt, strLt_irrefl, ih]

theorem replaceDots_append (a b : String) : replaceDots (a ++ b) = replaceDots a ++ replaceDots b := by
  have h : (a ++ b).data = a.data ++ b.data := rfl
  rw [replaceDots, replaceDots, replaceDots, h, List.map_append]
  rfl

theorem deps_foldl_all_relative (deps : List (String × Dependency))
    (data : List (String × String))
    (h : ∀ kd ∈ deps, kd.2.package.is_relative = true) :
    deps.foldl
      (fun data kd =>
        if kd.2.package.is_relative then data
        else putChild data kd.2.package.toString kd.2.version.toString)
      data = data := by
  induction deps generalizing data with
  | nil => rfl
  | cons kd rest ih =>
    have h1 := h kd (List.mem_cons_self _ _)
    simp only [List.foldl_cons, h1, if_true]
    exact ih data (fun x hx => h x (List.mem_cons_of_mem _ hx))

theorem projects_foldl_all_relative (ps : List Project)
    (data : List (String × String))
    (h : ∀ p ∈ ps, ∀ kd ∈ p.dependencies, kd.2.package.is_relative = true) :
    ps.foldl
      (fun data p =>
        p.dependencies.foldl
          (fun data kd =>
            if kd.2.package.is_relative then data
            else putChild data kd.2.package.toString kd.2.version.toString)
          data)
      data = data := by
  induction ps generalizing data with
  | nil => rfl
  | cons p rest ih =>
    simp only [List.foldl_cons]
    rw [deps_foldl_all_relative p.dependencies data (h p (List.mem_cons_self _ _))]
    exact ih data (fun q hq => h q (List.mem_cons_of_mem _ hq))

/-! ## C1: failures of the fetch block leave no version directory -/

/-- Claim C1: for every package processed by `download_dependencies`, if the
computed MD5 of the downloaded archive differs from the registry-supplied md5, or
unpacking the archive fails, the operation fails with an error and
afterwards the version directory does not exist. -/
theorem download_dependencies_fetch_failure_removes_version_dir
    (st : CacheState) (dep_md5 dl_md5 : String) (upr : Option (List String))
    (hdl : (download_dependencies_fetch st dep_md5 dl_md5 upr).downloaded = true)
    (hfail : dl_md5 ≠ dep_md5 ∨ upr = none) :
    (download_dependencies_fetch st dep_md5 dl_md5 upr).error ≠ none ∧
    (download_dependencies_fetch st dep_md5 dl_md5 upr).state.version_dir = none := by
  by_cases hc : st.version_dir = none ∨
      (st.md5_file.getD "" ≠ dep_md5 ∨ dep_md5 = "" ∨ st.md5_file.getD "" = "")
  · by_cases hdm : dl_md5 ≠ dep_md5
    · simp [download_dependencies_fetch, hc, hdm]
    · cases upr with
      | none => simp [download_dependencies_fetch, hc, hdm]
      | some c =>
          rcases hfail with h | h
          · exact absurd h hdm
          · exact absurd h (by simp)
  · simp [download_dependencies_fetch, hc] at hdl

/-- Witness for C1 at a concrete input: an empty cache, registry md5 "a",
downloaded md5 "b". -/
theorem download_dependencies_fetch_failure_removes_version_dir_witness :
    (download_dependencies_fetch ⟨none, none, false⟩ "a" "b" none).error ≠ none ∧
    (download_dependencies_fetch ⟨none, none, false⟩ "a" "b" none).state.version_dir = none :=
  download_dependencies_fetch_failure_removes_version_dir ⟨none, none, false⟩ "a" "b" none
    (by decide) (Or.inl (by decide))

/-! ## C2: reuse condition and rematerialization -/

/-- Counterexample to claim C2 as stated: with the `archive.md5` content
equal to the registry-supplied md5 (both empty) and the version directory
present, the code still downloads and unpacks, and the version directory is
replaced — `must_download` is also set whenever the md5 is empty. -/
theorem cache_reuse_claim_counterexample :
    (CacheState.mk (some ["f"]) (some "") false).md5_file = some "" ∧
    (CacheState.mk (some ["f"]) (some "") false).version_dir ≠ none ∧
    (download_dependencies_fetch (CacheState.mk (some ["f"]) (some "") false)
        "" "" (some ["g"])).downloaded = true ∧
    (download_dependencies_fetch (CacheState.mk (some ["f"]) (some "") false)
        "" "" (some ["g"])).unpack_attempted = true ∧
    (download_dependencies_fetch (CacheState.mk (some ["f"]) (some "") false)
        "" "" (some ["g"])).state.version_dir = some ["g"] := by
  decide

/-- Claim C2 as amended: reuse — no download, no unpack, cache state
untouched — happens exactly when the `archive.md5` content equals the
registry-supplied md5, that md5 is non-empty, and the version directory
exists; otherwise the package is rematerialized: a download runs, an md5
mismatch is fatal with the version directory removed, and on a match the
md5 file is rewritten and the archive unpacked into the version
directory. -/
theorem download_dependencies_fetch_reuse_or_rematerialize
    (st : CacheState) (dep_md5 dl_md5 : String) (upr : Option (List String)) :
    (st.md5_file.getD "" = dep_md5 ∧ dep_md5 ≠ "" ∧ st.version_dir ≠ none →
       download_dependencies_fetch st dep_md5 dl_md5 upr = ⟨st, false, false, none⟩) ∧
    (¬ (st.md5_file.getD "" = dep_md5 ∧ dep_md5 ≠ "" ∧ st.version_dir ≠ none) →
       (download_dependencies_fetch st dep_md5 dl_md5 upr).downloaded = true ∧
       (dl_md5 ≠ dep_md5 →
          (download_dependencies_fetch st dep_md5 dl_md5 upr).error ≠ none ∧
          (download_dependencies_fetch st dep_md5 dl_md5 upr).state.version_dir = none) ∧
       (dl_md5 = dep_md5 →
          (download_dependencies_fetch st dep_md5 dl_md5 upr).state.md5_file = some dep_md5 ∧
          (download_dependencies_fetch st dep_md5 dl_md5 upr).unpack_attempted = true ∧
          ∀ c, upr = some c →
            (download_dependencies_fetch st dep_md5 dl_md5 upr).state.version_dir = some c ∧
            (download_dependencies_fetch st dep_md5 dl_md5 upr).error = none)) := by
  constructor
  · rintro ⟨h1, h2, h3⟩
    have h4 : st.md5_file.getD "" ≠ "" := by rw [h1]; exact h2
    simp [download_dependencies_fetch, h1, h2, h3, h4]
  · intro hn
    have hc : st.version_dir = none ∨
        (st.md5_file.getD "" ≠ dep_md5 ∨ dep_md5 = "" ∨ st.md5_file.getD "" = "") := by
      by_cases hv : st.version_dir = none
      · exact Or.inl hv
      · by_cases he : st.md5_file.getD "" = dep_md5
        · by_cases hm : dep_md5 = ""
          · exact Or.inr (Or.inr (Or.inl hm))
          · exact absurd ⟨he, hm, hv⟩ hn
        · exact Or.inr (Or.inl he)
    refine ⟨?_, ?_, ?_⟩
    · by_cases hdm : dl_md5 ≠ dep_md5
      · simp [download_dependencies_fetch, hc, hdm]
      · cases upr <;> simp [download_dependencies_fetch, hc, hdm]
    · intro hdm
      simp [download_dependencies_fetch, hc, hdm]
    · intro hdm
      cases upr with
      | none => simp [download_dependencies_fetch, hc, hdm]
      | some c => simp [download_dependencies_fetch, hc, hdm]

/-! ## C3: registry response validation -/

/-- Claim C3: the response parser fails with the error string of the response
when an `error` field is present, and it reaches package processing exactly
when `api` is present and equal to 1 and no `error` field is present (an
absent or non-1 `api` is fatal). -/
theorem check_response_api_spec (api : Option Int) (err : Option String) :
    (∀ e, err = some e → check_response_api api err = Except.error e) ∧
    (check_response_api api err = Except.ok () ↔ api = some 1 ∧ err = none) := by
  constructor
  · intro e he
    subst he
    rfl
  · cases err with
    | some e => simp [check_response_api]
    | none =>
      cases api with
      | none => simp [check_response_api]
      | some n =>
        by_cases h1 : n = 1
        · subst h1
          simp [check_response_api]
        · by_cases h0 : n = 0 <;> simp [check_response_api, h0, h1]

/-! ## C4: header_only classification -/

/-- Counterexample to claim C4 as stated: `header_only` is computed before
the license file and the manifest file are inserted into the file set, so a
project whose only discovered file is a header but whose license file is
named "l.cpp" ends with `header_only = true` while the resolved file set
contains a file with a source extension. -/
theorem header_only_claim_counterexample :
    Project.findSources ["a.h"] [] false "l.cpp" "cppan.yml"
      ⟨fun s => s = "a.h", [], fun _ _ => false, true, true, true⟩
      = Except.ok (["a.h", "l.cpp", "cppan.yml"], true) ∧
    "l.cpp" ∈ ["a.h", "l.cpp", "cppan.yml"] ∧
    is_valid_source "l.cpp" = true := by
  decide

/-- Claim C4 as amended: when `findSources` succeeds, `header_only` is true
if and only if no file of the discovered set — the resolved set before the
license file and the manifest file are appended to it — has an extension
from the source set. -/
theorem findSources_header_only_of_discovered
    (sources files0 : List String) (isEmpty : Bool) (license cppan_filename : String)
    (w : SourceWorld) (files : List String) (ho : Bool)
    (h : Project.findSources sources files0 isEmpty license cppan_filename w
      = Except.ok (files, ho)) :
    ∃ dfs, findSourcesDiscover sources files0 isEmpty w = Except.ok dfs ∧
      (ho = true ↔ ∀ f ∈ dfs, is_valid_source f = false) := by
  unfold Project.findSources at h
  cases hd : findSourcesDiscover sources files0 isEmpty w with
  | error e =>
      simp only [hd] at h
      cases h
  | ok dfs =>
      simp only [hd] at h
      refine ⟨dfs, rfl, ?_⟩
      unfold findSourcesFinish at h
      split at h
      · cases h
      · split at h
        · cases h
        · split at h
          · cases h
          · simp only [Except.ok.injEq, Prod.mk.injEq] at h
            rw [← h.2]
            simp [List.all_eq_true]

/-- Witness for C4 at a concrete input: one discovered header, no license. -/
theorem findSources_header_only_of_discovered_witness :
    ∃ dfs, findSourcesDiscover ["a.h"] [] false
        ⟨fun s => s = "a.h", [], fun _ _ => false, true, true, true⟩ = Except.ok dfs ∧
      (true = true ↔ ∀ f ∈ dfs, is_valid_source f = false) :=
  findSources_header_only_of_discovered ["a.h"] [] false "" "cppan.yml"
    ⟨fun s => s = "a.h", [], fun _ _ => false, true, true, true⟩
    ["a.h", "cppan.yml"] true (by decide)

/-! ## C5: the root_directory guard -/

/-- Claim C5, evaluated against the code: the guard of
`Config::load_project` compares the unnormalized concatenation
`cp / root_directory` lexicographically with `cp`, and such an extension is
never less than its prefix, so the guard never fires — in particular
`root_directory: ".."` is accepted although it resolves to the parent of
the current working directory, which is not a descendant of it. -/
theorem root_directory_guard_dead :
    (∀ (cwd : List String) (rd : String), root_directory_guard_fires cwd rd = false) ∧
    root_directory_guard_fires ["home", "user", "proj"] ".." = false ∧
    isDescendantOf (normalizePath (appendPath ["home", "user", "proj"] ".."))
      ["home", "user", "proj"] = false := by
  refine ⟨?_, by decide, by decide⟩
  intro cwd rd
  exact pathLt_append_self cwd (splitPath rd)

/-! ## C6: PackageInfo target_name and variable_name -/

/-- Counterexample to claim C6 as stated: for the dependency on "org.a" at
any version, `target_name` is "org.a", whose dot-to-underscore image is
"org_a", but the constructor builds `variable_name` from
`package + "_" + ("_" + v unless v is "*")` and yields "org_a_". -/
theorem variable_name_claim_counterexample :
    (PackageInfo.mkFromDep
      ⟨⟨["org", "a"]⟩, Version.semver (-1) (-1) (-1), "", false, false, false, false⟩).target_name
      = "org.a" ∧
    replaceDots "org.a" = "org_a" ∧
    (PackageInfo.mkFromDep
      ⟨⟨["org", "a"]⟩, Version.semver (-1) (-1) (-1), "", false, false, false, false⟩).variable_name
      = "org_a_" ∧
    ("org_a_" : String) ≠ "org_a" := by
  decide

/-- Claim C6 as amended: `target_name` is the dotted package name, extended
with "-" and the rendered version when that version is not "*";
`variable_name` is the dot-to-underscore image of the package name followed
by "_", and by a further "_" and the dot-to-underscore image of the
rendered version when that version is not "*". -/
theorem PackageInfo_names_spec (d : Dependency) :
    (PackageInfo.mkFromDep d).target_name =
      d.package.toString ++
        (if d.version.toAnyVersion = "*" then "" else "-" ++ d.version.toAnyVersion) ∧
    (PackageInfo.mkFromDep d).variable_name =
      replaceDots d.package.toString ++ "_" ++
        (if d.version.toAnyVersion = "*" then ""
         else "_" ++ replaceDots d.version.toAnyVersion) := by
  refine ⟨rfl, ?_⟩
  show replaceDots (d.package.toString ++ "_" ++
      (if d.version.toAnyVersion = "*" then "" else "_" ++ d.version.toAnyVersion)) = _
  rw [replaceDots_append, replaceDots_append]
  by_cases h : d.version.toAnyVersion = "*"
  · rw [if_pos h, if_pos h,
      show replaceDots "" = "" from rfl, show replaceDots "_" = "_" from rfl,
      String.append_empty]
  · simp only [if_neg h]
    rw [replaceDots_append]
    rfl

/-! ## C7: insertion blocks chop the last character unconditionally -/

/-- Claim C7, evaluated against the code: `get_config_insertion` removes
the last character of every non-empty scalar whether or not it is a
newline (its own comment says "remove trailing newline"), so the scalar
"abc" is stored as "ab", while a newline-terminated block behaves as the
claim states. -/
theorem get_config_insertion_chops_last_char :
    get_config_insertion (some "abc") = "ab" ∧
    ("ab" : String) ≠ "abc" ∧
    get_config_insertion (some "line\n") = "line" ∧
    get_config_insertion none = "" ∧
    (BuildSystemConfigInsertions.get_config_insertions
      (some "abc") none none none).pre_sources = "ab" := by
  decide

/-! ## C8: the emitted alias section -/

/-- Claim C8: for a concrete (non-negative three-component) version the
alias section holds exactly three alias declarations pointing at the main
target — package-major.minor, package-major, and the bare package — and a
branch version emits no alias declarations. -/
theorem print_package_aliases_spec (d : Dependency) :
    (∀ ma mi pa : Int, d.version = Version.semver ma mi pa →
       0 ≤ ma → 0 ≤ mi → 0 ≤ pa →
       print_package_aliases d =
         [(d.package.toString ++ "-" ++ (intStr ma ++ "." ++ intStr mi),
           (PackageInfo.mkFromDep d).target_name),
          (d.package.toString ++ "-" ++ intStr ma,
           (PackageInfo.mkFromDep d).target_name),
          (d.package.toString, (PackageInfo.mkFromDep d).target_name)]) ∧
    (∀ b, d.version = Version.branch b → print_package_aliases d = []) := by
  constructor
  · intro ma mi pa hv hma hmi hpa
    have hma' : ma ≠ -1 := by omega
    have hmi' : mi ≠ -1 := by omega
    simp [print_package_aliases, hv, Version.isBranch, Version.withPatchAny,
      Version.withMinorAny, Version.toAnyVersion, hma', hmi']
  · intro b hv
    simp [print_package_aliases, hv, Version.isBranch]

/-! ## C9: no absolute dependencies, no registry round-trip -/

/-- Claim C9: when no project declares a dependency with an absolute
package path, the request body stays empty and `download_dependencies`
returns at once — no registry POST, no download, and `packages`,
`indirect_dependencies` and `dependency_tree` exactly as before. -/
theorem download_dependencies_no_absolute_deps_returns (cfg : ConfigState)
    (h : ∀ p ∈ cfg.projects, ∀ kd ∈ p.dependencies, kd.2.package.is_relative = true) :
    download_dependencies_start cfg = DownloadStart.no_deps cfg := by
  have hreq : download_dependencies_request cfg.projects = [] :=
    projects_foldl_all_relative cfg.projects [] h
  simp [download_dependencies_start, hreq]

/-- Witness for C9 at a concrete input: one project with one relative
dependency. -/
theorem download_dependencies_no_absolute_deps_returns_witness :
    download_dependencies_start
      ⟨"https://cppan.org", [⟨⟨["me"]⟩, [("me.sub",
        ⟨⟨["me", "sub"]⟩, Version.semver (-1) (-1) (-1), "", false, false, false, false⟩)]⟩],
        [], [], none⟩
      = DownloadStart.no_deps
      ⟨"https://cppan.org", [⟨⟨["me"]⟩, [("me.sub",
        ⟨⟨["me", "sub"]⟩, Version.semver (-1) (-1) (-1), "", false, false, false, false⟩)]⟩],
        [], [], none⟩ :=
  download_dependencies_no_absolute_deps_returns _ (by decide)

/-! ## C10: relative_name_to_absolute -/

/-- Claim C10: `relative_name_to_absolute` raises an error exactly when its
argument is a non-empty relative name while `root_project` is empty; the
empty string always yields the empty `ProjectPath` without error, and the
empty string is the name `Config::load` assigns to the single project of a
manifest with no `projects` key. -/
theorem relative_name_to_absolute_error_iff (root_project : ProjectPath) (name : String) :
    (exceptIsError (relative_name_to_absolute root_project name) = true ↔
      name ≠ "" ∧ (ProjectPath.fromString name).is_relative = true ∧
        root_project.segs = []) ∧
    relative_name_to_absolute root_project "" = Except.ok ⟨[]⟩ ∧
    load_project_names none = [""] := by
  refine ⟨?_, rfl, rfl⟩
  by_cases h0 : name = ""
  · subst h0
    simp [relative_name_to_absolute, exceptIsError]
  · by_cases h1 : (ProjectPath.fromString name).is_relative = true
    · by_cases h2 : root_project.segs = []
      · simp [relative_name_to_absolute, h0, h1, h2, exceptIsError]
      · simp [relative_name_to_absolute, h0, h1, h2, exceptIsError]
    · simp [relative_name_to_absolute, h0, h1, exceptIsError]

end Cppan

